import Mathlib

/-!
Shallow embedding of calloop's Unix-signal event source
(`src/sources/signals.rs`) and proofs of its specified properties.

Modelling conventions:
* Signal numbers are `Nat`; a nix `SigSet` is a `Finset Nat` (membership-only
  semantics of `sigset_t`).
* The calling thread's kernel-side blocked-signal mask is threaded explicitly
  as a `Finset Nat` argument/result (`blocked`).
* Fallible system calls (`sigprocmask` via `thread_block`/`thread_unblock`,
  `signalfd` creation, `SFD` mask commit, `read`) are driven by an explicit
  outcome oracle `SysRes`: `.ok` means the call succeeded and its kernel
  effect took place, `.err e` means it failed with the given nix error and
  the kernel state is unchanged.
* The `unreachable!` arm of `no_nix_err` (a Rust panic) is modelled by
  `Option`: a `none` result of an operation means that run panicked.
* `eprintln!` diagnostics are modelled as a `List NixError` of emitted
  diagnostic payloads (the code prints the nix error value itself).
-/

/-- One decoded `signalfd_siginfo` record (the fields the source uses, plus
representative metadata fields; the real struct carries more of the same). -/
structure Siginfo where
  ssi_signo : Nat
  ssi_code : Nat
  ssi_pid : Nat
deriving DecidableEq, Repr

/-- `Event`: an event generated by the signal event source, wrapping one
`siginfo` record (source lines 29-33). -/
structure Event where
  info : Siginfo
deriving DecidableEq, Repr

/-- A nix-crate error value: either an OS `errno` (`Error::Sys`) or one of
the non-OS variants. -/
inductive NixError where
  | sys (errno : Nat)
  | invalidPath
  | invalidUtf8
  | unsupportedOperation
deriving DecidableEq, Repr

/-- A `std::io::Error`: either built from a raw OS error code, or some other
representation (never produced by this module; present so that the claim
that only OS-code errors are produced is not vacuous). -/
inductive IoError where
  | fromRawOsError (code : Nat)
  | other (tag : Nat)
deriving DecidableEq, Repr

/-- Outcome oracle for one fallible system call. -/
inductive SysRes where
  | ok
  | err (e : NixError)
deriving DecidableEq, Repr

/-- `no_nix_err` (source lines 137-142): converts a nix error to an
`io::Error`; the non-`Sys` arms are `unreachable!`, i.e. a panic, modelled
as `none`. -/
def no_nix_err : NixError → Option IoError
  | .sys errno => some (.fromRawOsError errno)
  | _ => none

/-- The kernel `signalfd` object: its committed signal mask, the flags it
was created with, and the queue of pending decoded records. -/
structure SignalFd where
  mask : Finset Nat
  nonblock : Bool
  cloexec : Bool
  pending : List Siginfo
deriving DecidableEq

/-- The `Signals` event source (source lines 47-50): the shared `SignalFd`
and the tracked set `mask` of signals this instance keeps blocked. -/
structure Signals where
  sfd : SignalFd
  mask : Finset Nat
deriving DecidableEq

/-- Building a `SigSet` by iterating `mask.add(s)` over a slice, as the
source does in `new` and `set_signals`. -/
def sigSetFromList (signals : List Nat) : Finset Nat :=
  signals.foldl (fun m s => insert s m) ∅

/-- `Signals::new` (source lines 54-70): build the mask from the list, block
it on the thread (`thread_block`), then create the `SignalFd` with
`SFD_NONBLOCK | SFD_CLOEXEC`.  Returns the new source and the updated
thread mask; errors are converted by `no_nix_err`. -/
def Signals.new (signals : List Nat) (blocked : Finset Nat)
    (rBlock rCreate : SysRes) :
    Option (Except IoError Signals × Finset Nat) :=
  let mask := sigSetFromList signals
  match rBlock with
  | .err e => (no_nix_err e).map fun ioe => (.error ioe, blocked)
  | .ok =>
    let blocked1 := blocked ∪ mask
    match rCreate with
    | .err e => (no_nix_err e).map fun ioe => (.error ioe, blocked1)
    | .ok =>
      some (.ok { sfd := { mask := mask, nonblock := true, cloexec := true,
                           pending := [] },
                  mask := mask }, blocked1)

/-- `impl Drop for Signals` (source lines 128-135): `thread_unblock` the
tracked set; an error is not propagated (the return type has no error
component and `no_nix_err`/`unwrap` is not involved, so no panic either) but
is emitted as a diagnostic. -/
def Signals.drop (self : Signals) (blocked : Finset Nat) (rUnblock : SysRes) :
    Finset Nat × List NixError :=
  match rUnblock with
  | .ok => (blocked \ self.mask, [])
  | .err e => (blocked, [e])

/-- `Signals::add_signals` (source lines 76-86): `self.mask.add(s)` for each
argument signal, then `self.mask.thread_block()`, then commit `self.mask`
to the fd with `set_mask`.  On error the already-updated `self` is kept
(Rust mutates `self.mask` in place before the fallible calls). -/
def Signals.add_signals (self : Signals) (blocked : Finset Nat)
    (signals : List Nat) (rBlock rSetMask : SysRes) :
    Option (Except IoError Unit × Signals × Finset Nat) :=
  let self1 : Signals :=
    { self with mask := signals.foldl (fun m s => insert s m) self.mask }
  match rBlock with
  | .err e => (no_nix_err e).map fun ioe => (.error ioe, self1, blocked)
  | .ok =>
    let blocked1 := blocked ∪ self1.mask
    match rSetMask with
    | .err e => (no_nix_err e).map fun ioe => (.error ioe, self1, blocked1)
    | .ok =>
      some (.ok (), { self1 with sfd := { self1.sfd with mask := self1.mask } },
            blocked1)

/-- `Signals::remove_signals` (source lines 92-104): for each argument signal
`self.mask.remove(s)` and `removed.add(s)`, then `removed.thread_unblock()`
(exactly the removed set, not the remaining mask), then commit `self.mask`
with `set_mask`. -/
def Signals.remove_signals (self : Signals) (blocked : Finset Nat)
    (signals : List Nat) (rUnblock rSetMask : SysRes) :
    Option (Except IoError Unit × Signals × Finset Nat) :=
  let removed := sigSetFromList signals
  let self1 : Signals :=
    { self with mask := signals.foldl (fun m s => m.erase s) self.mask }
  match rUnblock with
  | .err e => (no_nix_err e).map fun ioe => (.error ioe, self1, blocked)
  | .ok =>
    let blocked1 := blocked \ removed
    match rSetMask with
    | .err e => (no_nix_err e).map fun ioe => (.error ioe, self1, blocked1)
    | .ok =>
      some (.ok (), { self1 with sfd := { self1.sfd with mask := self1.mask } },
            blocked1)

/-- One observable step of `set_signals`, recorded in order of execution. -/
inductive Eff where
  | threadUnblock (s : Finset Nat)
  | threadBlock (s : Finset Nat)
  | commitMask (s : Finset Nat)
  | assignTracked (s : Finset Nat)
deriving DecidableEq

/-- The four steps of `set_signals` in source order: unblock the whole
previous tracked set, block the whole new set, commit the new set to the fd,
assign the new set to `self.mask`. -/
def setSignalsFullTrace (oldMask newMask : Finset Nat) : List Eff :=
  [.threadUnblock oldMask, .threadBlock newMask, .commitMask newMask,
   .assignTracked newMask]

/-- `Signals::set_signals` (source lines 110-125): build `new_mask` from the
list, `self.mask.thread_unblock()`, `new_mask.thread_block()`,
`sfd.set_mask(&new_mask)`, and only then `self.mask = new_mask`.  The second
component of the result records the trace of steps that were performed (a
step that fails performs no effect and ends the trace). -/
def Signals.set_signals (self : Signals) (blocked : Finset Nat)
    (signals : List Nat) (rUnblock rBlock rSetMask : SysRes) :
    Option ((Except IoError Unit × Signals × Finset Nat) × List Eff) :=
  let new_mask := sigSetFromList signals
  match rUnblock with
  | .err e => (no_nix_err e).map fun ioe => ((.error ioe, self, blocked), [])
  | .ok =>
    let blocked1 := blocked \ self.mask
    match rBlock with
    | .err e => (no_nix_err e).map fun ioe =>
      ((.error ioe, self, blocked1), [.threadUnblock self.mask])
    | .ok =>
      let blocked2 := blocked1 ∪ new_mask
      match rSetMask with
      | .err e => (no_nix_err e).map fun ioe =>
        ((.error ioe, self, blocked2),
         [.threadUnblock self.mask, .threadBlock new_mask])
      | .ok =>
        some ((.ok (), { mask := new_mask,
                         sfd := { self.sfd with mask := new_mask } }, blocked2),
              setSignalsFullTrace self.mask new_mask)

/-- `SignalFd::read_signal` (nix crate; modelled from its semantics, it is
not part of this repository): a non-blocking read of one record.  A failing
`read` leaves the queue untouched and returns the nix error; otherwise an
empty queue yields `Ok(None)` and a non-empty queue pops its head. -/
def SignalFd.read_signal (sfd : SignalFd) (r : SysRes) :
    Except NixError (Option Siginfo) × SignalFd :=
  match r with
  | .err e => (.error e, sfd)
  | .ok =>
    match sfd.pending with
    | [] => (.ok none, sfd)
    | info :: rest => (.ok (some info), { sfd with pending := rest })

/-- The `loop` body of `Dispatcher::ready` (source lines 200-213): call
`read_signal`; on `Ok(Some(info))` invoke the callback with `Event { info }`
and loop; on `Ok(None)` stop; on `Err(e)` emit the diagnostic and stop.  The
`FnMut` callback is modelled as a state transformer `cb`; `readRes k` is the
outcome of the k-th `read` system call of this invocation; the fd's pending
queue is the explicit loop state (the lemma `readyLoop_step` below shows
each iteration performs exactly one `SignalFd.read_signal`). -/
def readyLoop {σ : Type} (cb : σ → Event → σ) (readRes : Nat → SysRes) :
    List Siginfo → σ → Nat → σ × List Siginfo × List NixError
  | pending, s, k =>
    match readRes k with
    | .err e => (s, pending, [e])
    | .ok =>
      match pending with
      | [] => (s, [], [])
      | info :: rest => readyLoop cb readRes rest (cb s { info := info }) (k + 1)

/-- The `Dispatcher` for signals (source lines 193-196): the user callback
and the shared `SignalFd`. -/
structure Dispatcher (σ : Type) where
  callback : σ → Event → σ
  sfd : SignalFd

/-- `Dispatcher::ready` (source lines 198-214): drain the fd from the start
of its queue; the records still queued when the loop stops stay in the fd. -/
def Dispatcher.ready {σ : Type} (d : Dispatcher σ) (s : σ)
    (readRes : Nat → SysRes) : σ × Dispatcher σ × List NixError :=
  let r := readyLoop d.callback readRes d.sfd.pending s 0
  (r.1, { d with sfd := { d.sfd with pending := r.2.1 } }, r.2.2)

/-- The cast `info.ssi_signo as c_int`: a `u32` reinterpreted as a 32-bit
signed integer (two's complement). -/
def u32_as_c_int (n : Nat) : Int :=
  if n % 4294967296 < 2147483648 then ((n % 4294967296 : Nat) : Int)
  else ((n % 4294967296 : Nat) : Int) - 4294967296

/-- `Signal::from_c_int` (nix crate; modelled from its semantics, it is not
part of this repository): succeeds exactly when `0 < signum < NSIG` with
`NSIG = 32`, returning the signal with that number; otherwise it returns an
`EINVAL` error, modelled as `none` since the only use site unwraps it. -/
def Signal.from_c_int (signum : Int) : Option Nat :=
  if 0 < signum ∧ signum < 32 then some signum.toNat else none

/-- `Event::signal` (source lines 36-38):
`Signal::from_c_int(self.info.ssi_signo as c_int).unwrap()`.  The `unwrap`
panic is modelled as `none`. -/
def Event.signal (ev : Event) : Option Nat :=
  Signal.from_c_int (u32_as_c_int ev.info.ssi_signo)

/-- `Event::full_info` (source lines 41-43). -/
def Event.full_info (ev : Event) : Siginfo :=
  ev.info

theorem sigSetFromList_aux (l : List Nat) (s : Finset Nat) :
    l.foldl (fun m a => insert a m) s = s ∪ l.toFinset := by
  induction l generalizing s with
  | nil => simp
  | cons a t ih =>
    simp only [List.foldl_cons, List.toFinset_cons, ih]
    ext x
    simp [or_comm, or_assoc, or_left_comm]

theorem sigSetFromList_eq (l : List Nat) : sigSetFromList l = l.toFinset := by
  simp [sigSetFromList, sigSetFromList_aux]

theorem foldl_erase_eq (l : List Nat) (s : Finset Nat) :
    l.foldl (fun m a => m.erase a) s = s \ l.toFinset := by
  induction l generalizing s with
  | nil => simp
  | cons a t ih =>
    simp only [List.foldl_cons, List.toFinset_cons, ih]
    ext x
    simp only [Finset.mem_sdiff, Finset.mem_erase, List.mem_toFinset,
      Finset.mem_insert]
    tauto

/-- Each iteration of `readyLoop` performs exactly one `SignalFd.read_signal`
on the fd holding the current queue, as `Dispatcher::ready` does. -/
theorem readyLoop_step {σ : Type} (cb : σ → Event → σ) (readRes : Nat → SysRes)
    (sfd : SignalFd) (s : σ) (k : Nat) :
    readyLoop cb readRes sfd.pending s k =
      match sfd.read_signal (readRes k) with
      | (.error e, sfd1) => (s, sfd1.pending, [e])
      | (.ok none, sfd1) => (s, sfd1.pending, [])
      | (.ok (some info), sfd1) =>
          readyLoop cb readRes sfd1.pending (cb s { info := info }) (k + 1) := by
  rcases hr : readRes k with _ | e <;>
    rcases hp : sfd.pending with _ | ⟨i, rest⟩ <;>
      simp [readyLoop, SignalFd.read_signal, hr, hp]

/-- Drain invariant of the loop: some prefix of the queue, taken in order,
is delivered to the callback one record at a time; the rest stays queued;
the diagnostic list is empty on a complete drain and holds exactly the one
read error that stopped an incomplete drain. -/
theorem readyLoop_spec {σ : Type} (cb : σ → Event → σ) (readRes : Nat → SysRes) :
    ∀ (l : List Siginfo) (s : σ) (k : Nat),
      ∃ n D, n ≤ l.length ∧
        readyLoop cb readRes l s k =
          (((l.take n).map fun i => ({ info := i } : Event)).foldl cb s,
           l.drop n, D) ∧
        ((D = [] ∧ n = l.length ∧ readRes (k + n) = .ok) ∨
         (∃ e, D = [e] ∧ readRes (k + n) = .err e)) := by
  intro l
  induction l with
  | nil =>
    intro s k
    rcases hr : readRes k with _ | e
    · exact ⟨0, [], by simp, by simp [readyLoop, hr],
        Or.inl ⟨rfl, rfl, by simpa using hr⟩⟩
    · exact ⟨0, [e], by simp, by simp [readyLoop, hr],
        Or.inr ⟨e, rfl, by simpa using hr⟩⟩
  | cons i rest ih =>
    intro s k
    rcases hr : readRes k with _ | e
    · obtain ⟨n, D, hn, heq, hD⟩ := ih (cb s { info := i }) (k + 1)
      refine ⟨n + 1, D, by simpa using Nat.succ_le_succ hn, ?_, ?_⟩
      · simpa [readyLoop, hr, List.take_succ_cons, List.drop_succ_cons]
          using heq
      · rcases hD with ⟨h1, h2, h3⟩ | ⟨e, h1, h3⟩
        · refine Or.inl ⟨h1, by simp [h2], ?_⟩
          rw [show k + (n + 1) = k + 1 + n from by omega]
          exact h3
        · refine Or.inr ⟨e, h1, ?_⟩
          rw [show k + (n + 1) = k + 1 + n from by omega]
          exact h3
    · exact ⟨0, [e], by simp, by simp [readyLoop, hr],
        Or.inr ⟨e, rfl, by simpa using hr⟩⟩

/-- Claim C1: on every readiness invocation, `Dispatcher::ready` repeatedly
calls `read_signal` until it returns none pending or an error; each read
record is wrapped as an `Event` and delivered synchronously to the callback
in arrival order (the fold applies the callback to the mapped records of a
queue prefix one by one, each before the next read); a mid-drain error
stops the loop for that invocation (one diagnostic, total function, no
panic), leaving exactly the undelivered records queued — none fabricated,
none dropped. -/
theorem ready_drains_in_order {σ : Type} (d : Dispatcher σ) (s : σ)
    (readRes : Nat → SysRes) :
    ∃ n D, n ≤ d.sfd.pending.length ∧
      Dispatcher.ready d s readRes =
        (((d.sfd.pending.take n).map fun i => ({ info := i } : Event)).foldl
            d.callback s,
         { d with sfd := { d.sfd with pending := d.sfd.pending.drop n } }, D) ∧
      ((D = [] ∧ n = d.sfd.pending.length) ∨
       (∃ e, D = [e] ∧ readRes n = .err e)) := by
  obtain ⟨n, D, hn, heq, hD⟩ := readyLoop_spec d.callback readRes d.sfd.pending s 0
  refine ⟨n, D, hn, ?_, ?_⟩
  · simp [Dispatcher.ready, heq]
  · rcases hD with ⟨h1, h2, h3⟩ | ⟨e, h1, h3⟩
    · exact Or.inl ⟨h1, h2⟩
    · exact Or.inr ⟨e, h1, by simpa using h3⟩

/-- Claim C2: after `Drop` of `Signals` (with the unblock system call
succeeding), every signal in the tracked set at disposal time is no longer
blocked on the thread, and a signal outside the tracked set keeps whatever
block-state it had — the mask is restored for exactly this instance's
ownership slice. -/
theorem drop_unblocks_tracked (self : Signals) (blocked : Finset Nat) :
    (∀ s ∈ self.mask, s ∉ (Signals.drop self blocked .ok).1) ∧
    (∀ s, s ∉ self.mask →
      (s ∈ (Signals.drop self blocked .ok).1 ↔ s ∈ blocked)) := by
  constructor <;> intro s hs <;> simp [Signals.drop, hs]

theorem drop_unblocks_tracked_witness :
    2 ∉ (Signals.drop ⟨⟨{2, 3}, true, true, []⟩, {2, 3}⟩ {2, 3, 7} .ok).1 ∧
    (7 ∈ (Signals.drop ⟨⟨{2, 3}, true, true, []⟩, {2, 3}⟩ {2, 3, 7} .ok).1 ↔
      7 ∈ ({2, 3, 7} : Finset Nat)) :=
  ⟨(drop_unblocks_tracked ⟨⟨{2, 3}, true, true, []⟩, {2, 3}⟩ {2, 3, 7}).1 2
      (by decide),
   (drop_unblocks_tracked ⟨⟨{2, 3}, true, true, []⟩, {2, 3}⟩ {2, 3, 7}).2 7
      (by decide)⟩

/-- Claim C9: an error in the unblocking step of `Drop` is never propagated
(the operation is total, returns no error value and performs no `unwrap`)
and is instead emitted as the single diagnostic of the disposal. -/
theorem drop_never_propagates (self : Signals) (blocked : Finset Nat) :
    Signals.drop self blocked .ok = (blocked \ self.mask, []) ∧
    ∀ e, Signals.drop self blocked (.err e) = (blocked, [e]) :=
  ⟨rfl, fun _ => rfl⟩

/-- Claim C5: `Signals::new` blocks the given signals on the thread, then
opens the signalfd scoped to exactly that set with the non-blocking and
close-on-exec flags; a failure of either system call surfaces as an OS-code
error, and when the second step fails the thread mask has already been
altered with no rollback. -/
theorem new_blocks_then_creates (signals : List Nat) (blocked : Finset Nat) :
    Signals.new signals blocked .ok .ok =
      some (.ok { sfd := { mask := signals.toFinset, nonblock := true,
                           cloexec := true, pending := [] },
                  mask := signals.toFinset }, blocked ∪ signals.toFinset) ∧
    (∀ n r2, Signals.new signals blocked (.err (.sys n)) r2 =
      some (.error (.fromRawOsError n), blocked)) ∧
    (∀ n, Signals.new signals blocked .ok (.err (.sys n)) =
      some (.error (.fromRawOsError n), blocked ∪ signals.toFinset)) := by
  refine ⟨?_, ?_, ?_⟩ <;> simp [Signals.new, no_nix_err, sigSetFromList_eq]

/-- Claim C4: for every tracked set and argument list, `remove_signals`
unblocks on the thread exactly the argument signals (the thread mask loses
precisely `signals`, whether or not the fd commit then fails), the tracked
set afterwards is disjoint from the unblocked set, and the block-state of
every signal still tracked is untouched (intersecting the new thread mask
with the remaining tracked set gives the same signals as the old one). -/
theorem remove_signals_unblocks_exactly (self : Signals) (blocked : Finset Nat)
    (signals : List Nat) :
    (Signals.remove_signals self blocked signals .ok .ok =
      some (.ok (),
        { sfd := { self.sfd with mask := self.mask \ signals.toFinset },
          mask := self.mask \ signals.toFinset },
        blocked \ signals.toFinset)) ∧
    (∀ n, Signals.remove_signals self blocked signals .ok (.err (.sys n)) =
      some (.error (.fromRawOsError n),
        { self with mask := self.mask \ signals.toFinset },
        blocked \ signals.toFinset)) ∧
    Disjoint (self.mask \ signals.toFinset) signals.toFinset ∧
    (blocked \ signals.toFinset) ∩ (self.mask \ signals.toFinset) =
      blocked ∩ (self.mask \ signals.toFinset) := by
  refine ⟨?_, ?_, Finset.sdiff_disjoint, ?_⟩
  · simp [Signals.remove_signals, no_nix_err, foldl_erase_eq, sigSetFromList_eq]
  · simp [Signals.remove_signals, no_nix_err, foldl_erase_eq, sigSetFromList_eq]
  · ext x
    simp only [Finset.mem_inter, Finset.mem_sdiff]
    tauto

/-- Claim C6: `add_signals` first unions the argument into the tracked set
(the update is present even when the first system call fails), then blocks
the updated set on the thread (so every argument signal is blocked), then
commits the updated full set to the fd; either system-call failure surfaces
as an OS-code error. -/
theorem add_signals_spec (self : Signals) (blocked : Finset Nat)
    (signals : List Nat) :
    (Signals.add_signals self blocked signals .ok .ok =
      some (.ok (),
        { sfd := { self.sfd with mask := self.mask ∪ signals.toFinset },
          mask := self.mask ∪ signals.toFinset },
        blocked ∪ (self.mask ∪ signals.toFinset))) ∧
    (∀ n r2, Signals.add_signals self blocked signals (.err (.sys n)) r2 =
      some (.error (.fromRawOsError n),
        { self with mask := self.mask ∪ signals.toFinset }, blocked)) ∧
    (∀ n, Signals.add_signals self blocked signals .ok (.err (.sys n)) =
      some (.error (.fromRawOsError n),
        { self with mask := self.mask ∪ signals.toFinset },
        blocked ∪ (self.mask ∪ signals.toFinset))) ∧
    signals.toFinset ⊆ blocked ∪ (self.mask ∪ signals.toFinset) := by
  refine ⟨?_, ?_, ?_, ?_⟩
  · simp [Signals.add_signals, no_nix_err, sigSetFromList_aux]
  · simp [Signals.add_signals, no_nix_err, sigSetFromList_aux]
  · simp [Signals.add_signals, no_nix_err, sigSetFromList_aux]
  · intro a ha
    simp [ha]

/-- Claim C3: `set_signals` performs, in order, unblock of the whole
previous tracked set, block of the whole new set, commit of the new set to
the fd, and only then the assignment of the tracked set (the trace recorded
for each oracle outcome is the prefix of the full step sequence reached);
consequently on any error the tracked set and the fd's committed set are
both unchanged, so the tracked set still holds the last value committed to
the kernel object. -/
theorem set_signals_order_and_error (self : Signals) (blocked : Finset Nat)
    (signals : List Nat) :
    (Signals.set_signals self blocked signals .ok .ok .ok =
      some ((.ok (),
        { sfd := { self.sfd with mask := signals.toFinset },
          mask := signals.toFinset },
        (blocked \ self.mask) ∪ signals.toFinset),
        setSignalsFullTrace self.mask signals.toFinset)) ∧
    (∀ n r2 r3, Signals.set_signals self blocked signals (.err (.sys n)) r2 r3 =
      some ((.error (.fromRawOsError n), self, blocked),
        (setSignalsFullTrace self.mask signals.toFinset).take 0)) ∧
    (∀ n r3, Signals.set_signals self blocked signals .ok (.err (.sys n)) r3 =
      some ((.error (.fromRawOsError n), self, blocked \ self.mask),
        (setSignalsFullTrace self.mask signals.toFinset).take 1)) ∧
    (∀ n, Signals.set_signals self blocked signals .ok .ok (.err (.sys n)) =
      some ((.error (.fromRawOsError n), self,
             (blocked \ self.mask) ∪ signals.toFinset),
        (setSignalsFullTrace self.mask signals.toFinset).take 2)) ∧
    (∀ r1 r2 r3 ioe self1 blocked1 tr,
      Signals.set_signals self blocked signals r1 r2 r3 =
        some ((.error ioe, self1, blocked1), tr) →
      self1.mask = self.mask ∧ self1.sfd.mask = self.sfd.mask) := by
  refine ⟨?_, ?_, ?_, ?_, ?_⟩
  · simp [Signals.set_signals, no_nix_err, sigSetFromList_eq, setSignalsFullTrace]
  · simp [Signals.set_signals, no_nix_err, sigSetFromList_eq, setSignalsFullTrace]
  · simp [Signals.set_signals, no_nix_err, sigSetFromList_eq, setSignalsFullTrace]
  · simp [Signals.set_signals, no_nix_err, sigSetFromList_eq, setSignalsFullTrace]
  · intro r1 r2 r3 ioe self1 blocked1 tr h
    rcases r1 with _ | (n1 | _ | _ | _) <;> rcases r2 with _ | (n2 | _ | _ | _) <;>
      rcases r3 with _ | (n3 | _ | _ | _) <;>
        simp [Signals.set_signals, no_nix_err] at h <;>
          (obtain ⟨⟨-, h2, -⟩, -⟩ := h; subst h2; exact ⟨rfl, rfl⟩)

theorem set_signals_order_and_error_witness :
    ({2} : Finset Nat) = {2} ∧ ({2} : Finset Nat) = {2} :=
  (set_signals_order_and_error ⟨⟨{2}, true, true, []⟩, {2}⟩ {2} [3]).2.2.2.2
    (.err (.sys 13)) .ok .ok (.fromRawOsError 13)
    ⟨⟨{2}, true, true, []⟩, {2}⟩ {2} [] rfl

/-- Claim C7: for a tracked set disjoint from the argument list, a
successful `add_signals(A)` followed by a successful `remove_signals(A)`
restores the tracked set to its value before the add. -/
theorem add_remove_round_trip (self : Signals) (blocked b1 b2 : Finset Nat)
    (A : List Nat) (self1 self2 : Signals)
    (hdisj : Disjoint self.mask A.toFinset)
    (h1 : Signals.add_signals self blocked A .ok .ok = some (.ok (), self1, b1))
    (h2 : Signals.remove_signals self1 b1 A .ok .ok =
      some (.ok (), self2, b2)) :
    self2.mask = self.mask := by
  simp [Signals.add_signals, sigSetFromList_aux] at h1
  simp [Signals.remove_signals, foldl_erase_eq] at h2
  obtain ⟨hs1, -⟩ := h1
  obtain ⟨hs2, -⟩ := h2
  rw [← hs2, ← hs1]
  ext x
  simp only [Finset.mem_sdiff, Finset.mem_union]
  have hd : x ∈ self.mask → x ∉ A.toFinset := fun hx =>
    Finset.disjoint_left.mp hdisj hx
  tauto

theorem add_remove_round_trip_witness :
    ((insert 10 {2} : Finset Nat).erase 10) = {2} :=
  add_remove_round_trip ⟨⟨{2}, true, true, []⟩, {2}⟩ {2}
    ({2} ∪ insert 10 {2}) (({2} ∪ insert 10 {2}) \ insert 10 ∅) [10]
    ⟨⟨insert 10 {2}, true, true, []⟩, insert 10 {2}⟩
    ⟨⟨((insert 10 {2} : Finset Nat).erase 10), true, true, []⟩,
     ((insert 10 {2} : Finset Nat).erase 10)⟩
    (by decide) rfl rfl

/-- Claim C8: every failure a fallible operation surfaces to its caller is
the single OS-code-wrapping error kind: `no_nix_err` produces an
`IoError.fromRawOsError` exactly from `Sys` errors (and nothing else —
other nix variants hit the `unreachable!`), every error value returned by
`new`, `add_signals`, `remove_signals` and `set_signals` has that shape for
any system-call outcome, and a failing `read_signal` hands its caller the
error wrapping the underlying OS code unchanged. -/
theorem errors_wrap_os_code (self : Signals) (sfd : SignalFd)
    (blocked : Finset Nat) (signals : List Nat) (r1 r2 r3 : SysRes) :
    (∀ e ioe, no_nix_err e = some ioe →
      ∃ n, e = .sys n ∧ ioe = .fromRawOsError n) ∧
    (∀ ioe b1, Signals.new signals blocked r1 r2 = some (.error ioe, b1) →
      ∃ n, ioe = .fromRawOsError n) ∧
    (∀ ioe s1 b1, Signals.add_signals self blocked signals r1 r2 =
      some (.error ioe, s1, b1) → ∃ n, ioe = .fromRawOsError n) ∧
    (∀ ioe s1 b1, Signals.remove_signals self blocked signals r1 r2 =
      some (.error ioe, s1, b1) → ∃ n, ioe = .fromRawOsError n) ∧
    (∀ ioe s1 b1 tr, Signals.set_signals self blocked signals r1 r2 r3 =
      some ((.error ioe, s1, b1), tr) → ∃ n, ioe = .fromRawOsError n) ∧
    (∀ n, sfd.read_signal (.err (.sys n)) = (.error (.sys n), sfd)) := by
  refine ⟨?_, ?_, ?_, ?_, ?_, fun n => rfl⟩
  · intro e ioe h
    rcases e with n | _ | _ | _
    · simp only [no_nix_err, Option.some.injEq] at h
      exact ⟨n, rfl, h.symm⟩
    all_goals exact Option.noConfusion h
  · intro ioe b1 h
    rcases r1 with _ | (n1 | _ | _ | _) <;> rcases r2 with _ | (n2 | _ | _ | _) <;>
      simp [Signals.new, no_nix_err] at h <;> aesop
  · intro ioe s1 b1 h
    rcases r1 with _ | (n1 | _ | _ | _) <;> rcases r2 with _ | (n2 | _ | _ | _) <;>
      simp [Signals.add_signals, no_nix_err] at h <;> aesop
  · intro ioe s1 b1 h
    rcases r1 with _ | (n1 | _ | _ | _) <;> rcases r2 with _ | (n2 | _ | _ | _) <;>
      simp [Signals.remove_signals, no_nix_err] at h <;> aesop
  · intro ioe s1 b1 tr h
    rcases r1 with _ | (n1 | _ | _ | _) <;> rcases r2 with _ | (n2 | _ | _ | _) <;>
      rcases r3 with _ | (n3 | _ | _ | _) <;>
        simp [Signals.set_signals, no_nix_err] at h <;> aesop

theorem errors_wrap_os_code_witness :
    ∃ n, IoError.fromRawOsError 9 = IoError.fromRawOsError n :=
  (errors_wrap_os_code ⟨⟨∅, true, true, []⟩, ∅⟩ ⟨∅, true, true, []⟩ ∅ []
    (.err (.sys 9)) .ok .ok).2.1 (.fromRawOsError 9) ∅ rfl

/-- Claim C10: `Event::signal` is partial — it unwraps
`Signal::from_c_int(ssi_signo as c_int)`, so it yields the signal number
exactly when the cast value is a recognized signal (strictly between 0 and
NSIG = 32) and panics (modelled `none`) otherwise; witnessed by a
non-signal record (0), an out-of-range record (32) and a valid one (2). -/
theorem event_signal_partial :
    (∀ info : Siginfo, Event.signal { info := info } =
      if 0 < u32_as_c_int info.ssi_signo ∧ u32_as_c_int info.ssi_signo < 32
      then some (u32_as_c_int info.ssi_signo).toNat else none) ∧
    Event.signal { info := { ssi_signo := 0, ssi_code := 0, ssi_pid := 0 } } =
      none ∧
    Event.signal { info := { ssi_signo := 32, ssi_code := 0, ssi_pid := 0 } } =
      none ∧
    Event.signal { info := { ssi_signo := 2, ssi_code := 0, ssi_pid := 0 } } =
      some 2 := by
  refine ⟨fun info => rfl, by decide, by decide, by decide⟩
